import Mathlib

/-!
# Verification of the ferris-elf benchmark pipeline (`lib.py`)

Shallow embedding of the benchmark pipeline of `lib.py`:
ephemeral-workspace lifecycle, sandbox build/run dispatch, tolerant
line-protocol parsing, answer verification, statistical aggregation,
persistence rows, and nanosecond display formatting.

Modelling conventions:
* Python `float` time values are modelled as `ℚ` (the claims under test
  are about control flow, partitioning and exact decimal rendering, not
  binary rounding).
* Python runtime exceptions are modelled with `Except PyError`;
  each constructor names the Python exception class raised at the
  corresponding source line.
* JSON blobs decoded by `json.loads` are modelled by the `Blob`
  structure holding exactly the keys `process_run_result` reads; a
  missing key is `Option.none` and reading it raises `KeyError`.
  A JSON `null` answer value is `PyAnswer.null` (distinct from a
  missing key).
* Python string values carried as answers are modelled by Lean
  `String`; `str.isdigit` is modelled for ASCII content.
-/

namespace FerrisElf

/-- Python exception classes that the embedded code can raise. -/
inductive PyError
  | typeError
  | keyError
  | statisticsError
  | attributeError
  deriving DecidableEq, Repr

/-- A Python value that can sit in the `answer` slot of a decoded blob or
in the answers dict: an `int`, a `str`, or `None` (JSON `null` / SQL
`NULL`).  Lean structural equality on this type coincides with Python
`==` on these values (`42 == "42"` is `False` in Python; `None == None`
is `True`). -/
inductive PyAnswer
  | int (n : ℤ)
  | str (s : String)
  | null
  deriving DecidableEq, Repr

/-- The nested object carried under the `typical` / `mean` / `median`
keys of a cargo-criterion `benchmark-complete` message. -/
structure StatBlock where
  estimate : ℚ
  upper_bound : ℚ
  lower_bound : ℚ
  deriving DecidableEq, Repr

/-- A JSON blob decoded from one `{`-prefixed output line, holding the
keys `process_run_result` reads.  `Option.none` models a missing key. -/
structure Blob where
  reason : Option String := Option.none
  answer : Option PyAnswer := Option.none
  typical : Option StatBlock := Option.none
  mean : Option StatBlock := Option.none
  median : Option StatBlock := Option.none
  deriving DecidableEq, Repr

/-- Python `blob["k"]`: raises `KeyError` when the key is absent. -/
def getKey {α : Type} : Option α → Except PyError α
  | Option.none => .error .keyError
  | Option.some a => .ok a

/-- Computation rule for `Except` bind on a success value. -/
theorem ok_bind {ε α β : Type} (a : α) (f : α → Except ε β) :
    (Except.ok a : Except ε α) >>= f = f a := rfl

/-- Computation rule for `getKey` on a present key. -/
theorem getKey_some {α : Type} (a : α) : getKey (Option.some a) = .ok a := rfl

/-- The `RunResult` dataclass of `lib.py` (answer defaults to `""`,
`verified` to `False`, the five numeric fields to `None`). -/
structure RunResult where
  answer : PyAnswer := .str ""
  verified : Bool := false
  typical : Option ℚ := Option.none
  average : Option ℚ := Option.none
  median : Option ℚ := Option.none
  high_bound : Option ℚ := Option.none
  low_bound : Option ℚ := Option.none
  deriving DecidableEq, Repr

/-- `load_answers`: builds the dict `answer_map` from the rows returned
by the solutions query, later insertions overwriting earlier ones. -/
def load_answers (rows : List (String × PyAnswer)) : String → Option PyAnswer :=
  rows.foldl (fun m kv => fun k => if k = kv.1 then Option.some kv.2 else m k)
    (fun _ => Option.none)

/-- One iteration of the `for blob in result_lst` loop body of
`process_run_result`: `blob.get("reason", None)` selects the branch;
a `ferris-answer` blob sets `answer` and recomputes `verified` by
`answers_map.get(in_file, None) == answer`; a `benchmark-complete`
blob overwrites the five numeric fields from the nested stat blocks. -/
def applyBlob (in_file : String) (answers_map : String → Option PyAnswer)
    (result : RunResult) (blob : Blob) : Except PyError RunResult :=
  match blob.reason with
  | Option.none => .ok result
  | Option.some reason =>
    if reason = "ferris-answer" then do
      let answer ← getKey blob.answer
      if (answers_map in_file).getD PyAnswer.null = answer then
        .ok { result with answer := answer, verified := true }
      else
        .ok { result with answer := answer, verified := false }
    else if reason = "benchmark-complete" then do
      let typ ← getKey blob.typical
      let mn ← getKey blob.mean
      let md ← getKey blob.median
      .ok { result with
              typical := Option.some typ.estimate
              average := Option.some mn.estimate
              median := Option.some md.estimate
              high_bound := Option.some typ.upper_bound
              low_bound := Option.some typ.lower_bound }
    else .ok result

/-- `process_run_result(in_file, answers_map, result_lst)`.  The
argument `result_lst` is `run_code`'s return value, which is `None`
(`Option.none`) when the sandbox run raised `docker.errors.ContainerError`;
in that case the Python `for blob in result_lst` loop raises
`TypeError: 'NoneType' object is not iterable`. -/
def process_run_result (in_file : String) (answers_map : String → Option PyAnswer)
    (result_lst : Option (List Blob)) : Except PyError RunResult :=
  match result_lst with
  | Option.none => .error .typeError
  | Option.some lst => lst.foldlM (applyBlob in_file answers_map) {}

/-- `statistics.mean` applied to a list of float-or-`None` values:
`mean([])` raises `StatisticsError`, a `None` element raises
`TypeError`, otherwise the arithmetic mean is returned. -/
def stats_mean (l : List (Option ℚ)) : Except PyError ℚ :=
  if l.any (fun x => x = Option.none) then .error .typeError
  else if l.length = 0 then .error .statisticsError
  else .ok ((l.filterMap id).sum / (l.length : ℚ))

/-- Lines 57–75 of `benchmark`: partition into `verified_results`; when
non-empty, the reported medians/averages are means over it (the
"Verified" reply branch, boolean `true`); otherwise the same means over
the full `results` list (the "Unverified" branch, boolean `false`). -/
def summarize (results : List RunResult) : Except PyError (Bool × ℚ × ℚ) :=
  let verified_results := results.filter (fun r => r.verified)
  if verified_results.length > 0 then do
    let median ← stats_mean (verified_results.map (fun r => r.median))
    let average ← stats_mean (verified_results.map (fun r => r.average))
    .ok (true, median, average)
  else do
    let median ← stats_mean (results.map (fun r => r.median))
    let average ← stats_mean (results.map (fun r => r.average))
    .ok (false, median, average)

/-! ## Display formatting (`ns`) -/

/-- Round to the nearest integer, ties to even — the rounding CPython's
`format(x, '.0f')` applies to the (here exactly represented) value. -/
def roundHalfEven (q : ℚ) : ℤ :=
  let f := ⌊q⌋
  if q - f < 1/2 then f
  else if 1/2 < q - f then f + 1
  else if f % 2 = 0 then f else f + 1

/-- Two-digit zero-padded rendering of a natural number below 100. -/
def padTwo (n : ℕ) : String :=
  if n < 10 then "0" ++ toString n else toString n

/-- Python `f"{q:.2f}"` on an exactly-represented value. -/
def fmt2 (q : ℚ) : String :=
  let n := roundHalfEven (q * 100)
  (if n < 0 then "-" else "") ++ toString (n.natAbs / 100) ++ "." ++ padTwo (n.natAbs % 100)

/-- Python `f"{q:.0f}"` on an exactly-represented value. -/
def fmt0 (q : ℚ) : String :=
  toString (roundHalfEven q)

/-- `ns(v)`: format a nanosecond count for display.  The source uses
strict `>` comparisons against `1e9`, `1e6`, `1e3`. -/
def ns (v : ℚ) : String :=
  if v > 1000000000 then fmt2 (v / 1000000000) ++ "s"
  else if v > 1000000 then fmt2 (v / 1000000) ++ "ms"
  else if v > 1000 then fmt2 (v / 1000) ++ "µs"
  else fmt0 v ++ "ns"

/-! ## Claim C9: display-format thresholds -/

/-- Claim C9 counterexample: the claim says the seconds unit is chosen
for `v ≥ 1e9`, but the source compares with strict `>`.  At exactly
`v = 1 000 000 000` the code renders `"1000.00ms"`, not `"1.00s"`. -/
theorem ns_boundary_counterexample :
    ns 1000000000 = "1000.00ms" ∧ ns 1000000000 ≠ "1.00s" := by
  have h : ns 1000000000 = "1000.00ms" := by
    norm_num [ns, fmt2, roundHalfEven, padTwo]
    try rfl
  exact ⟨h, by rw [h]; decide⟩

/-- Claim C9 (amended): `ns` selects the unit with strict threshold
comparisons `v > 1e9 → s`, `v > 1e6 → ms`, `v > 1e3 → µs`, else `ns`,
dividing by the unit and rendering two decimal places (zero for
nanoseconds); the claim's four sample values render as stated. -/
theorem ns_unit_selection :
    (∀ v : ℚ, 1000000000 < v → ns v = fmt2 (v / 1000000000) ++ "s") ∧
    (∀ v : ℚ, 1000000 < v → v ≤ 1000000000 → ns v = fmt2 (v / 1000000) ++ "ms") ∧
    (∀ v : ℚ, 1000 < v → v ≤ 1000000 → ns v = fmt2 (v / 1000) ++ "µs") ∧
    (∀ v : ℚ, v ≤ 1000 → ns v = fmt0 v ++ "ns") ∧
    ns 2500000000 = "2.50s" ∧ ns 2500000 = "2.50ms" ∧
    ns 2500 = "2.50µs" ∧ ns 250 = "250ns" := by
  refine ⟨?_, ?_, ?_, ?_, ?_, ?_, ?_, ?_⟩
  · intro v h
    rw [ns, if_pos h]
  · intro v h1 h2
    rw [ns, if_neg (not_lt.mpr h2), if_pos h1]
  · intro v h1 h2
    rw [ns, if_neg (not_lt.mpr (le_trans h2 (by norm_num))), if_neg (not_lt.mpr h2), if_pos h1]
  · intro v h
    rw [ns, if_neg (not_lt.mpr (le_trans h (by norm_num))),
      if_neg (not_lt.mpr (le_trans h (by norm_num))), if_neg (not_lt.mpr h)]
  · norm_num [ns, fmt2, roundHalfEven, padTwo]
    try rfl
  · norm_num [ns, fmt2, roundHalfEven, padTwo]
    try rfl
  · norm_num [ns, fmt2, roundHalfEven, padTwo]
    try rfl
  · norm_num [ns, fmt0, roundHalfEven]
    try rfl

/-- Witness for `ns_unit_selection`: instantiating its first clause at
`v = 2 000 000 000` (which satisfies the threshold hypothesis). -/
theorem ns_unit_selection_witness : ns 2000000000 = "2.00s" := by
  have h := ns_unit_selection.1 2000000000 (by norm_num)
  rw [h]
  have h2 : (2000000000 : ℚ) / 1000000000 = 2 := by norm_num
  rw [h2]
  norm_num [fmt2, roundHalfEven, padTwo]
  try rfl

/-! ## Claim C3: summary aggregation -/

/-- `stats_mean` succeeds exactly on non-empty all-present lists, and
then returns the arithmetic mean. -/
theorem stats_mean_ok (l : List (Option ℚ)) (h : ∀ x ∈ l, x ≠ Option.none)
    (h2 : l ≠ []) :
    stats_mean l = .ok ((l.filterMap id).sum / (l.length : ℚ)) := by
  have hany : (l.any fun x => decide (x = Option.none)) = false := by
    rw [List.any_eq_false]
    intro x hx
    simpa using h x hx
  unfold stats_mean
  rw [hany]
  simp only [Bool.false_eq_true, if_false]
  rw [if_neg fun hlen => h2 (List.length_eq_zero.mp hlen)]

/-- Claim C3 counterexample: for a single `InputResult` with
`verified = false` and all numeric fields absent (exactly what a failed
sandbox run is supposed to produce), `summarize` takes the fallback
branch and `statistics.mean([None])` raises `TypeError` — it does not
return a summary. -/
theorem summarize_raises_counterexample :
    summarize [{ answer := .str "", verified := false, typical := Option.none,
                 average := Option.none, median := Option.none,
                 high_bound := Option.none, low_bound := Option.none }] =
      .error .typeError := rfl

/-- Claim C3 (amended): when the selected partition is non-empty and
every selected result carries its median and average, `summarize`
returns the arithmetic means over the verified partition (preferred)
or over the full set (fallback); a result with absent fields in the
selected partition instead raises `TypeError`. -/
theorem summarize_partition_means (results : List RunResult) :
    ((results.filter fun r => r.verified) ≠ [] →
     (∀ r ∈ results.filter fun r => r.verified,
        r.median ≠ Option.none ∧ r.average ≠ Option.none) →
     summarize results = .ok (true,
       ((results.filter fun r => r.verified).filterMap RunResult.median).sum /
         (((results.filter fun r => r.verified).length : ℚ)),
       ((results.filter fun r => r.verified).filterMap RunResult.average).sum /
         (((results.filter fun r => r.verified).length : ℚ)))) ∧
    ((results.filter fun r => r.verified) = [] → results ≠ [] →
     (∀ r ∈ results, r.median ≠ Option.none ∧ r.average ≠ Option.none) →
     summarize results = .ok (false,
       (results.filterMap RunResult.median).sum / ((results.length : ℚ)),
       (results.filterMap RunResult.average).sum / ((results.length : ℚ)))) := by
  constructor
  · intro hne hfields
    have hmed : stats_mean ((results.filter fun r => r.verified).map fun r => r.median) =
        .ok (((results.filter fun r => r.verified).filterMap RunResult.median).sum /
          (((results.filter fun r => r.verified).length : ℚ))) := by
      rw [stats_mean_ok]
      · simp [List.filterMap_map, Function.comp]
      · intro x hx
        rcases List.mem_map.mp hx with ⟨r, hr, rfl⟩
        exact (hfields r hr).1
      · simpa using hne
    have havg : stats_mean ((results.filter fun r => r.verified).map fun r => r.average) =
        .ok (((results.filter fun r => r.verified).filterMap RunResult.average).sum /
          (((results.filter fun r => r.verified).length : ℚ))) := by
      rw [stats_mean_ok]
      · simp [List.filterMap_map, Function.comp]
      · intro x hx
        rcases List.mem_map.mp hx with ⟨r, hr, rfl⟩
        exact (hfields r hr).2
      · simpa using hne
    simp only [summarize]
    rw [if_pos (List.length_pos.mpr hne), hmed, havg]
    rfl
  · intro hv hne hfields
    have hmed : stats_mean (results.map fun r => r.median) =
        .ok ((results.filterMap RunResult.median).sum / ((results.length : ℚ))) := by
      rw [stats_mean_ok]
      · simp [List.filterMap_map, Function.comp]
      · intro x hx
        rcases List.mem_map.mp hx with ⟨r, hr, rfl⟩
        exact (hfields r hr).1
      · simpa using hne
    have havg : stats_mean (results.map fun r => r.average) =
        .ok ((results.filterMap RunResult.average).sum / ((results.length : ℚ))) := by
      rw [stats_mean_ok]
      · simp [List.filterMap_map, Function.comp]
      · intro x hx
        rcases List.mem_map.mp hx with ⟨r, hr, rfl⟩
        exact (hfields r hr).2
      · simpa using hne
    simp only [summarize]
    rw [if_neg, hmed, havg]
    · rfl
    · rw [hv]
      simp

/-- Witness for `summarize_partition_means`: one verified result with
median 10 and average 20 satisfies the first clause's hypotheses and
yields the verified-branch summary `(true, 10, 20)`. -/
theorem summarize_partition_means_witness :
    summarize [{ verified := true, median := Option.some 10,
                 average := Option.some 20 }] = .ok (true, 10, 20) := by
  have h := (summarize_partition_means
    [{ verified := true, median := Option.some 10, average := Option.some 20 }]).1
    (by decide) (by decide)
  rw [h]
  norm_num [List.filterMap_cons, RunResult.median, RunResult.average]

/-! ## Claim C2: line-protocol parsing (`run_code`, lines 207–216)

The parsing stage of `run_code`: iterate over `out.splitlines()`; skip a
line when it is empty or its first character is not `{`; otherwise
`json.loads` it and append the blob to `results`.  `json.loads` is the
external decoder, modelled as a function parameter; a `JSONDecodeError`
it raises is NOT caught by `run_code` (its `except` clause only catches
`docker.errors.ContainerError`), so a decode failure propagates. -/

/-- The parsing loop of `run_code` over the split output lines, with the
external `json.loads` passed in.  A decode error aborts the loop (the
source has no handler for `JSONDecodeError`). -/
def parse_run_output (json_loads : String → Except Unit Blob)
    (lines : List String) : Except Unit (List Blob) :=
  lines.foldlM
    (fun results l =>
      if l.length = 0 ∨ l.front ≠ '{' then .ok results
      else do
        let l_data ← json_loads l
        .ok (results ++ [l_data]))
    []

/-- A stand-in for `json.loads` used at concrete inputs: decodes the one
well-formed event line `{good}` and fails on everything else, as the
real decoder fails on the malformed candidate line `{bad`. -/
def toy_loads : String → Except Unit Blob := fun l =>
  if l = "\x7bgood\x7d" then
    .ok { reason := Option.some "ferris-answer", answer := Option.some (.str "42") }
  else .error ()

/-- Claim C2 counterexample: a decode failure on one candidate line DOES
abort parsing of the remaining lines.  The stream `["{bad", "{good}"]`
has one malformed candidate followed by one valid event line; the claim
predicts the valid line's event is still yielded, but the parse aborts
with the decode error instead. -/
theorem parse_abort_counterexample :
    parse_run_output toy_loads ["\x7bbad", "\x7bgood\x7d"] = .error () ∧
    parse_run_output toy_loads ["\x7bbad", "\x7bgood\x7d"] ≠
      .ok [{ reason := Option.some "ferris-answer",
             answer := Option.some (.str "42") }] := by
  have h : parse_run_output toy_loads ["\x7bbad", "\x7bgood\x7d"] = Except.error () := rfl
  refine ⟨h, fun hcontra => ?_⟩
  rw [h] at hcontra
  exact Except.noConfusion hcontra

/-- Auxiliary induction for `parse_run_output`, generalizing the
accumulator of the fold. -/
theorem parse_run_output_aux (json_loads : String → Except Unit Blob) :
    ∀ (lines : List String) (acc : List Blob),
      (∀ l ∈ lines, ¬(l.length = 0 ∨ l.front ≠ '{') → ∃ b, json_loads l = .ok b) →
      lines.foldlM
        (fun results l =>
          if l.length = 0 ∨ l.front ≠ '{' then .ok results
          else do
            let l_data ← json_loads l
            .ok (results ++ [l_data]))
        acc =
      .ok (acc ++ lines.filterMap fun l =>
        if l.length = 0 ∨ l.front ≠ '{' then Option.none else (json_loads l).toOption)
  | [], acc, _ => by
    simp only [List.foldlM_nil, List.filterMap_nil, List.append_nil]
    rfl
  | l :: rest, acc, h => by
    by_cases hc : l.length = 0 ∨ l.front ≠ '{'
    · rw [List.foldlM_cons, List.filterMap_cons, if_pos hc, if_pos hc]
      have := parse_run_output_aux json_loads rest acc
        (fun l' hl' => h l' (List.mem_cons_of_mem _ hl'))
      simpa using this
    · rcases h l (List.mem_cons_self l rest) hc with ⟨b, hb⟩
      rw [List.foldlM_cons, List.filterMap_cons, if_neg hc, if_neg hc, hb]
      have := parse_run_output_aux json_loads rest (acc ++ [b])
        (fun l' hl' => h l' (List.mem_cons_of_mem _ hl'))
      simpa [Except.toOption] using this

/-- Claim C2 (amended): only non-empty lines whose first character is
`{` are event candidates; a stream interleaving arbitrary
non-candidate lines with candidate lines that all decode successfully
yields exactly the decoded events of the candidate lines, in arrival
order.  (A candidate line that fails to decode instead aborts the
parse — see the counterexample.) -/
theorem parse_yields_valid_events (json_loads : String → Except Unit Blob)
    (lines : List String)
    (h : ∀ l ∈ lines, ¬(l.length = 0 ∨ l.front ≠ '{') → ∃ b, json_loads l = .ok b) :
    parse_run_output json_loads lines =
      .ok (lines.filterMap fun l =>
        if l.length = 0 ∨ l.front ≠ '{' then Option.none
        else (json_loads l).toOption) := by
  have := parse_run_output_aux json_loads lines [] h
  simpa [parse_run_output] using this

/-- Witness for `parse_yields_valid_events`: diagnostic noise, an empty
line and one valid event line yield exactly that line's event. -/
theorem parse_yields_valid_events_witness :
    parse_run_output toy_loads ["Compiling ferris v0.1.0", "", "\x7bgood\x7d"] =
      .ok [{ reason := Option.some "ferris-answer",
             answer := Option.some (.str "42") }] := by
  have h := parse_yields_valid_events toy_loads
    ["Compiling ferris v0.1.0", "", "\x7bgood\x7d"]
    (by
      intro l hl hc
      simp only [List.mem_cons, List.not_mem_nil, or_false] at hl
      rcases hl with rfl | rfl | rfl
      · exact absurd (Or.inr (by decide)) hc
      · exact absurd (Or.inl (by decide)) hc
      · exact ⟨_, rfl⟩)
  rw [h]
  rfl

/-! ## Claims C4 & C6: event folding in `process_run_result` -/

/-- A blob whose `reason` is not `"ferris-answer"` leaves the `answer`
and `verified` fields unchanged (when it does not raise). -/
theorem applyBlob_not_answer (in_file : String) (m : String → Option PyAnswer)
    (r r' : RunResult) (blob : Blob)
    (hres : blob.reason ≠ Option.some "ferris-answer")
    (h : applyBlob in_file m r blob = .ok r') :
    r'.answer = r.answer ∧ r'.verified = r.verified := by
  unfold applyBlob at h
  cases hb : blob.reason with
  | none =>
    rw [hb] at h
    cases h
    exact ⟨rfl, rfl⟩
  | some reason =>
    rw [hb] at h
    dsimp only at h
    rw [hb] at hres
    have hr : ¬(reason = "ferris-answer") := fun hh => hres (by rw [hh])
    rw [if_neg hr] at h
    by_cases hbc : reason = "benchmark-complete"
    · rw [if_pos hbc] at h
      cases ht : blob.typical with
      | none => rw [ht] at h; exact Except.noConfusion h
      | some t =>
        rw [ht] at h
        cases hm2 : blob.mean with
        | none => rw [hm2] at h; exact Except.noConfusion h
        | some mn =>
          rw [hm2] at h
          cases hm3 : blob.median with
          | none => rw [hm3] at h; exact Except.noConfusion h
          | some md =>
            rw [hm3] at h
            cases h
            exact ⟨rfl, rfl⟩
    · rw [if_neg hbc] at h
      cases h
      exact ⟨rfl, rfl⟩

/-- A blob whose `reason` is not `"benchmark-complete"` leaves the five
numeric fields unchanged (when it does not raise). -/
theorem applyBlob_not_stats (in_file : String) (m : String → Option PyAnswer)
    (r r' : RunResult) (blob : Blob)
    (hres : blob.reason ≠ Option.some "benchmark-complete")
    (h : applyBlob in_file m r blob = .ok r') :
    r'.typical = r.typical ∧ r'.average = r.average ∧ r'.median = r.median ∧
      r'.high_bound = r.high_bound ∧ r'.low_bound = r.low_bound := by
  unfold applyBlob at h
  cases hb : blob.reason with
  | none =>
    rw [hb] at h
    cases h
    exact ⟨rfl, rfl, rfl, rfl, rfl⟩
  | some reason =>
    rw [hb] at h
    dsimp only at h
    rw [hb] at hres
    have hr : ¬(reason = "benchmark-complete") := fun hh => hres (by rw [hh])
    by_cases hfa : reason = "ferris-answer"
    · rw [if_pos hfa] at h
      cases ha : blob.answer with
      | none => rw [ha] at h; exact Except.noConfusion h
      | some a =>
        rw [ha, getKey_some, ok_bind] at h
        by_cases hcmp : (m in_file).getD PyAnswer.null = a
        · rw [if_pos hcmp] at h
          cases h
          exact ⟨rfl, rfl, rfl, rfl, rfl⟩
        · rw [if_neg hcmp] at h
          cases h
          exact ⟨rfl, rfl, rfl, rfl, rfl⟩
    · rw [if_neg hfa, if_neg hr] at h
      cases h
      exact ⟨rfl, rfl, rfl, rfl, rfl⟩

/-- Folding blobs none of which is a `ferris-answer` event preserves the
`answer` and `verified` fields. -/
theorem fold_no_answer (in_file : String) (m : String → Option PyAnswer) :
    ∀ (l : List Blob) (r₀ r : RunResult),
      (∀ b ∈ l, b.reason ≠ Option.some "ferris-answer") →
      l.foldlM (applyBlob in_file m) r₀ = .ok r →
      r.answer = r₀.answer ∧ r.verified = r₀.verified
  | [], r₀, r, _, h => by
    cases h
    exact ⟨rfl, rfl⟩
  | blob :: rest, r₀, r, hl, h => by
    rw [List.foldlM_cons] at h
    cases hab : applyBlob in_file m r₀ blob with
    | error e => rw [hab] at h; exact Except.noConfusion h
    | ok r₁ =>
      rw [hab] at h
      have hstep := applyBlob_not_answer in_file m r₀ r₁ blob
        (hl blob (List.mem_cons_self blob rest)) hab
      have hrest := fold_no_answer in_file m rest r₁ r
        (fun b hb => hl b (List.mem_cons_of_mem _ hb)) h
      exact ⟨hrest.1.trans hstep.1, hrest.2.trans hstep.2⟩

/-- Folding blobs none of which is a `benchmark-complete` event
preserves the five numeric fields. -/
theorem fold_no_stats (in_file : String) (m : String → Option PyAnswer) :
    ∀ (l : List Blob) (r₀ r : RunResult),
      (∀ b ∈ l, b.reason ≠ Option.some "benchmark-complete") →
      l.foldlM (applyBlob in_file m) r₀ = .ok r →
      r.typical = r₀.typical ∧ r.average = r₀.average ∧ r.median = r₀.median ∧
        r.high_bound = r₀.high_bound ∧ r.low_bound = r₀.low_bound
  | [], r₀, r, _, h => by
    cases h
    exact ⟨rfl, rfl, rfl, rfl, rfl⟩
  | blob :: rest, r₀, r, hl, h => by
    rw [List.foldlM_cons] at h
    cases hab : applyBlob in_file m r₀ blob with
    | error e => rw [hab] at h; exact Except.noConfusion h
    | ok r₁ =>
      rw [hab] at h
      have hstep := applyBlob_not_stats in_file m r₀ r₁ blob
        (hl blob (List.mem_cons_self blob rest)) hab
      have hrest := fold_no_stats in_file m rest r₁ r
        (fun b hb => hl b (List.mem_cons_of_mem _ hb)) h
      exact ⟨hrest.1.trans hstep.1, hrest.2.1.trans hstep.2.1,
        hrest.2.2.1.trans hstep.2.2.1, hrest.2.2.2.1.trans hstep.2.2.2.1,
        hrest.2.2.2.2.trans hstep.2.2.2.2⟩

/-- Core induction for claim C4, generalized over the fold's starting
accumulator. -/
theorem fold_answer_last (in_file : String) (m : String → Option PyAnswer) :
    ∀ (l₁ : List Blob) (b : Blob) (l₂ : List Blob) (r₀ r : RunResult) (a : PyAnswer),
      b.reason = Option.some "ferris-answer" → b.answer = Option.some a →
      (∀ b' ∈ l₂, b'.reason ≠ Option.some "ferris-answer") →
      (l₁ ++ b :: l₂).foldlM (applyBlob in_file m) r₀ = .ok r →
      r.answer = a ∧ (r.verified = true ↔ (m in_file).getD PyAnswer.null = a)
  | [], b, l₂, r₀, r, a, hb, ha, hl₂, h => by
    rw [List.nil_append, List.foldlM_cons] at h
    have hab : applyBlob in_file m r₀ b =
        (if (m in_file).getD PyAnswer.null = a then
          Except.ok { r₀ with answer := a, verified := true }
        else Except.ok { r₀ with answer := a, verified := false }) := by
      unfold applyBlob
      rw [hb]
      dsimp only
      rw [if_pos rfl, ha, getKey_some, ok_bind]
    by_cases hcmp : (m in_file).getD PyAnswer.null = a
    · rw [if_pos hcmp] at hab
      rw [hab] at h
      have hrest := fold_no_answer in_file m l₂ _ r hl₂ h
      refine ⟨hrest.1, ?_⟩
      rw [hrest.2]
      simp [hcmp]
    · rw [if_neg hcmp] at hab
      rw [hab] at h
      have hrest := fold_no_answer in_file m l₂ _ r hl₂ h
      refine ⟨hrest.1, ?_⟩
      rw [hrest.2]
      simp [hcmp]
  | blob :: l₁, b, l₂, r₀, r, a, hb, ha, hl₂, h => by
    rw [List.cons_append, List.foldlM_cons] at h
    cases hab : applyBlob in_file m r₀ blob with
    | error e => rw [hab] at h; exact Except.noConfusion h
    | ok r₁ =>
      rw [hab] at h
      exact fold_answer_last in_file m l₁ b l₂ r₁ r a hb ha hl₂ h

/-- Core induction for claim C6, generalized over the fold's starting
accumulator. -/
theorem fold_stats_last (in_file : String) (m : String → Option PyAnswer) :
    ∀ (l₁ : List Blob) (b : Blob) (l₂ : List Blob) (r₀ r : RunResult) (t mn md : StatBlock),
      b.reason = Option.some "benchmark-complete" →
      b.typical = Option.some t → b.mean = Option.some mn → b.median = Option.some md →
      (∀ b' ∈ l₂, b'.reason ≠ Option.some "benchmark-complete") →
      (l₁ ++ b :: l₂).foldlM (applyBlob in_file m) r₀ = .ok r →
      r.typical = Option.some t.estimate ∧ r.average = Option.some mn.estimate ∧
        r.median = Option.some md.estimate ∧ r.high_bound = Option.some t.upper_bound ∧
        r.low_bound = Option.some t.lower_bound
  | [], b, l₂, r₀, r, t, mn, md, hb, ht, hm, hmd, hl₂, h => by
    rw [List.nil_append, List.foldlM_cons] at h
    have hab : applyBlob in_file m r₀ b = Except.ok { r₀ with
        typical := Option.some t.estimate
        average := Option.some mn.estimate
        median := Option.some md.estimate
        high_bound := Option.some t.upper_bound
        low_bound := Option.some t.lower_bound } := by
      unfold applyBlob
      rw [hb]
      dsimp only
      rw [if_neg (by decide), if_pos rfl, ht, getKey_some, ok_bind, hm,
        getKey_some, ok_bind, hmd, getKey_some, ok_bind]
    rw [hab] at h
    have hrest := fold_no_stats in_file m l₂ _ r hl₂ h
    exact ⟨hrest.1, hrest.2.1, hrest.2.2.1, hrest.2.2.2.1, hrest.2.2.2.2⟩
  | blob :: l₁, b, l₂, r₀, r, t, mn, md, hb, ht, hm, hmd, hl₂, h => by
    rw [List.cons_append, List.foldlM_cons] at h
    cases hab : applyBlob in_file m r₀ blob with
    | error e => rw [hab] at h; exact Except.noConfusion h
    | ok r₁ =>
      rw [hab] at h
      exact fold_stats_last in_file m l₁ b l₂ r₁ r t mn md hb ht hm hmd hl₂ h

/-- Claim C4 counterexample: the claim says an absent answer-table entry
never verifies, but `answers_map.get(in_file, None) == answer` compares
the `None` default against the event's answer with Python `==`; an
answer event carrying JSON `null` (`{"reason": "ferris-answer",
"answer": null}` is well-formed JSON) therefore verifies against an
empty table: `None == None` is `True`. -/
theorem process_run_result_null_counterexample :
    process_run_result "a.txt" (fun _ => Option.none)
      (Option.some [{ reason := Option.some "ferris-answer",
                      answer := Option.some PyAnswer.null }]) =
      .ok { answer := PyAnswer.null, verified := true } := rfl

/-- Claim C4 (amended): the `verified` flag is true iff the answer of
the LAST answer event Python-equals the answer table's entry for the
input file, where a missing entry compares as `None`; consequently a
missing entry verifies exactly a `null` answer and never a non-null
one. -/
theorem process_run_result_verified (in_file : String) (m : String → Option PyAnswer)
    (l₁ : List Blob) (b : Blob) (l₂ : List Blob) (a : PyAnswer) (r : RunResult)
    (hb : b.reason = Option.some "ferris-answer") (ha : b.answer = Option.some a)
    (hl₂ : ∀ b' ∈ l₂, b'.reason ≠ Option.some "ferris-answer")
    (hok : process_run_result in_file m (Option.some (l₁ ++ b :: l₂)) = .ok r) :
    r.answer = a ∧ (r.verified = true ↔ (m in_file).getD PyAnswer.null = a) :=
  fold_answer_last in_file m l₁ b l₂ {} r a hb ha hl₂ hok

/-- Witness for `process_run_result_verified`: with table entry
`"a.txt" ↦ "42"` and a stream carrying answer events `"41"` then
`"42"`, the last event wins and verifies. -/
theorem process_run_result_verified_witness :
    process_run_result "a.txt"
        (fun k => if k = "a.txt" then Option.some (.str "42") else Option.none)
        (Option.some
          [{ reason := Option.some "ferris-answer", answer := Option.some (.str "41") },
           { reason := Option.some "ferris-answer", answer := Option.some (.str "42") }]) =
      .ok { answer := PyAnswer.str "42", verified := true } ∧
    (PyAnswer.str "42" ≠ PyAnswer.str "41") := by
  refine ⟨?_, by decide⟩
  have h := process_run_result_verified "a.txt"
    (fun k => if k = "a.txt" then Option.some (.str "42") else Option.none)
    [{ reason := Option.some "ferris-answer", answer := Option.some (.str "41") }]
    { reason := Option.some "ferris-answer", answer := Option.some (.str "42") }
    [] (.str "42") { answer := PyAnswer.str "42", verified := true }
    rfl rfl (fun b' hb' => absurd hb' (List.not_mem_nil b')) rfl
  have hv : ({ answer := PyAnswer.str "42", verified := true } : RunResult).verified = true :=
    h.2.mpr rfl
  exact rfl

/-- Claim C6: folding an event list processes events in arrival order
with last-write-wins per kind; the five numeric fields come from the
last `benchmark-complete` event exactly as `typical = typical.estimate`,
`average = mean.estimate`, `median = median.estimate`,
`high_bound = typical.upper_bound`, `low_bound = typical.lower_bound`. -/
theorem process_run_result_statistics (in_file : String) (m : String → Option PyAnswer)
    (l₁ : List Blob) (b : Blob) (l₂ : List Blob) (t mn md : StatBlock) (r : RunResult)
    (hb : b.reason = Option.some "benchmark-complete")
    (ht : b.typical = Option.some t) (hm : b.mean = Option.some mn)
    (hmd : b.median = Option.some md)
    (hl₂ : ∀ b' ∈ l₂, b'.reason ≠ Option.some "benchmark-complete")
    (hok : process_run_result in_file m (Option.some (l₁ ++ b :: l₂)) = .ok r) :
    r.typical = Option.some t.estimate ∧ r.average = Option.some mn.estimate ∧
      r.median = Option.some md.estimate ∧ r.high_bound = Option.some t.upper_bound ∧
      r.low_bound = Option.some t.lower_bound :=
  fold_stats_last in_file m l₁ b l₂ {} r t mn md hb ht hm hmd hl₂ hok

/-- Witness for `process_run_result_statistics`: the spec's round-trip
example with `typical.estimate = 1500000`, `mean.estimate = 1600000`,
`median.estimate = 1550000`, `typical.upper_bound = 1700000`,
`typical.lower_bound = 1400000`. -/
theorem process_run_result_statistics_witness :
    process_run_result "in.txt" (fun _ => Option.none)
      (Option.some [{ reason := Option.some "benchmark-complete",
                      typical := Option.some ⟨1500000, 1700000, 1400000⟩,
                      mean := Option.some ⟨1600000, 1650000, 1550000⟩,
                      median := Option.some ⟨1550000, 1600000, 1500000⟩ }]) =
      .ok { typical := Option.some 1500000, average := Option.some 1600000,
            median := Option.some 1550000, high_bound := Option.some 1700000,
            low_bound := Option.some 1400000 } := by
  have h := process_run_result_statistics "in.txt" (fun _ => Option.none)
    [] { reason := Option.some "benchmark-complete",
         typical := Option.some ⟨1500000, 1700000, 1400000⟩,
         mean := Option.some ⟨1600000, 1650000, 1550000⟩,
         median := Option.some ⟨1550000, 1600000, 1500000⟩ }
    [] ⟨1500000, 1700000, 1400000⟩ ⟨1600000, 1650000, 1550000⟩ ⟨1550000, 1600000, 1500000⟩
    { typical := Option.some 1500000, average := Option.some 1600000,
      median := Option.some 1550000, high_bound := Option.some 1700000,
      low_bound := Option.some 1400000 }
    rfl rfl rfl rfl (fun b' hb' => absurd hb' (List.not_mem_nil b')) rfl
  exact rfl

/-! ## Persistence (`save_results`) and the benchmark pipeline

The `benchmark` coroutine is modelled as a pure function of an
environment describing the externals it drives: the build outcome, the
input files discovered for the day, the per-input sandbox outcome
(`Option.none` models `run_code` returning `None` after
`docker.errors.ContainerError`), and the answers rows.  The
`with tempfile.TemporaryDirectory(...)` context manager guarantees
exactly one recursive delete of the workspace on every exit path of its
block (normal return, early return, or exception unwinding into the
outer `try`); each exit path of the model records that destruction in
`destroyCount`. -/

/-- Python `str.isdigit` (ASCII content): non-empty and all digits. -/
def pyIsdigit (s : String) : Bool :=
  s.length != 0 && s.toList.all (fun c => c.isDigit)

/-- Python `int(s)` on a string of ASCII digits. -/
def digitsToNat (s : String) : ℕ :=
  s.toList.foldl (fun n c => 10 * n + (c.toNat - 48)) 0

/-- One row of the `runs` table as built by `save_results`:
`(str(author_id), str_code, day, part, r.median, int-or-None answer,
r.answer)`. -/
structure Row where
  user : String
  code : String
  day : ℤ
  part : ℤ
  time : Option ℚ
  answer : Option ℤ
  answer2 : PyAnswer
  deriving DecidableEq, Repr

/-- The answer column expression of `save_results`:
`int(r.answer) if isinstance(r.answer, int) or r.answer.isdigit() else
None`.  On an `int` the first disjunct short-circuits; on a `str` the
`isdigit` test decides; on `None` the attribute access
`None.isdigit()` raises `AttributeError`. -/
def answer_column : PyAnswer → Except PyError (Option ℤ)
  | .int n => .ok (Option.some n)
  | .str s => .ok (if pyIsdigit s then Option.some (digitsToNat s : ℤ) else Option.none)
  | .null => .error .attributeError

/-- One element of the `db_results` list comprehension in
`save_results`. -/
def make_row (author_id day part : ℤ) (code : String) (r : RunResult) :
    Except PyError Row := do
  let a ← answer_column r.answer
  .ok { user := toString author_id, code := code, day := day, part := part,
        time := r.median, answer := a, answer2 := r.answer }

/-- `save_results(cur, author_id, day, part, code, results)`: builds the
whole row list before the batched insert; a raised exception while
building aborts before anything is inserted. -/
def save_results (author_id day part : ℤ) (code : String)
    (results : List RunResult) : Except PyError (List Row) :=
  results.mapM (make_row author_id day part code)

/-- The externals a `benchmark` invocation drives. -/
structure Env where
  buildOk : Bool
  answerRows : List (String × PyAnswer)
  inputFiles : List String
  runOutput : String → Option (List Blob)
  authorId : ℤ
  day : ℤ
  part : ℤ
  code : String

/-- The user-visible reply of an invocation, one constructor per
distinct reply the source can send. -/
inductive Reply
  | buildFailed
  | completeVerified (median average : String)
  | completeUnverified (median average : String)
  | unhandledException
  deriving DecidableEq, Repr

/-- Observable outcome of one `benchmark` invocation. -/
structure Trace where
  reply : Reply
  savedRows : Option (List Row)
  stagedInputs : List String
  runsExecuted : List String
  destroyCount : ℕ

/-- The `for in_file in get_input_files(day)` loop (lines 46–51): stage
the input, run the sandbox, fold the parsed blobs into a `RunResult`.
Returns the inputs staged, the runs executed, and the collected results
or the first uncaught exception. -/
def run_loop (answers_map : String → Option PyAnswer) (env : Env) :
    List String → List String × List String × Except PyError (List RunResult)
  | [] => ([], [], .ok [])
  | in_file :: rest =>
    let result_lst := env.runOutput in_file
    match process_run_result in_file answers_map result_lst with
    | .error e => ([in_file], [in_file], .error e)
    | .ok result =>
      match run_loop answers_map env rest with
      | (staged, runs, res) =>
        (in_file :: staged, in_file :: runs,
          match res with
          | .error e => .error e
          | .ok results => .ok (result :: results))

/-- `benchmark(ctx, day, part, code)` as a function of its environment.
Mirrors lines 35–79: build (abort with the "Build failed." reply on
failure), load answers, per-input loop, conditional save+commit, then —
after the workspace is destroyed at the end of the `with` block — the
summary reply; any uncaught exception is absorbed by the outer
`try/except` into the "Unhandled exception" reply. -/
def benchmark (env : Env) : Trace :=
  if env.buildOk then
    match run_loop (load_answers env.answerRows) env env.inputFiles with
    | (staged, runs, .error _) =>
      { reply := .unhandledException, savedRows := Option.none,
        stagedInputs := staged, runsExecuted := runs, destroyCount := 1 }
    | (staged, runs, .ok results) =>
      match (if results.length > 0 then
              (save_results env.authorId env.day env.part env.code results).map Option.some
             else .ok Option.none) with
      | .error _ =>
        { reply := .unhandledException, savedRows := Option.none,
          stagedInputs := staged, runsExecuted := runs, destroyCount := 1 }
      | .ok saved =>
        match summarize results with
        | .error _ =>
          { reply := .unhandledException, savedRows := saved,
            stagedInputs := staged, runsExecuted := runs, destroyCount := 1 }
        | .ok (onVerified, median, average) =>
          { reply := if onVerified then .completeVerified (ns median) (ns average)
                     else .completeUnverified (ns median) (ns average),
            savedRows := saved, stagedInputs := staged, runsExecuted := runs,
            destroyCount := 1 }
  else
    { reply := .buildFailed, savedRows := Option.none, stagedInputs := [],
      runsExecuted := [], destroyCount := 1 }

/-- Claim C1 (code-bug evaluation): with two input files discovered and
the sandbox run failing on the first (`run_code` returns `None` after
`docker.errors.ContainerError`), `process_run_result` iterates `None`
and raises `TypeError`; the whole invocation aborts with the
"Unhandled exception" reply: zero `InputResult`s are produced, nothing
is saved, and the second input is never staged or run — not the one
`InputResult` per `InputFile` with `verified=false` that the claim
describes. -/
theorem benchmark_aborts_on_run_failure :
    benchmark { buildOk := true, answerRows := [], inputFiles := ["input1.txt", "input2.txt"],
                runOutput := fun _ => Option.none, authorId := 1, day := 3, part := 1,
                code := "fn day3(input: &str) -> i64" } =
      { reply := .unhandledException, savedRows := Option.none,
        stagedInputs := ["input1.txt"], runsExecuted := ["input1.txt"],
        destroyCount := 1 } := rfl

/-- Claim C7: when the build fails, the invocation replies
"Build failed." and returns before the per-input phase: nothing is
staged, no run is executed, nothing is persisted. -/
theorem benchmark_build_failure (env : Env) (h : env.buildOk = false) :
    benchmark env = { reply := .buildFailed, savedRows := Option.none,
                      stagedInputs := [], runsExecuted := [], destroyCount := 1 } := by
  unfold benchmark
  rw [h]
  rfl

/-- Witness for `benchmark_build_failure` at a concrete environment
whose build fails. -/
theorem benchmark_build_failure_witness :
    benchmark { buildOk := false, answerRows := [("a.txt", .str "42")],
                inputFiles := ["a.txt"], runOutput := fun _ => Option.some [],
                authorId := 7, day := 1, part := 2, code := "fn" } =
      { reply := .buildFailed, savedRows := Option.none, stagedInputs := [],
        runsExecuted := [], destroyCount := 1 } :=
  benchmark_build_failure _ rfl

/-- Claim C8: every exit path of a `benchmark` invocation — normal
completion, early return on build failure, or an unhandled fault in the
pipeline — destroys the ephemeral workspace exactly once
(`tempfile.TemporaryDirectory` used as a context manager around the
whole pipeline body). -/
theorem benchmark_destroy_count (env : Env) : (benchmark env).destroyCount = 1 := by
  unfold benchmark
  by_cases h : env.buildOk = true
  · rw [if_pos h]
    split
    · rfl
    · split
      · rfl
      · split
        · rfl
        · rfl
  · rw [if_neg h]

/-- Characterization of one successfully built row. -/
theorem make_row_char (aid d p : ℤ) (c : String) (r : RunResult) (row : Row)
    (h : make_row aid d p c r = .ok row) :
    row.answer2 = r.answer ∧ row.time = r.median ∧
      (∀ n : ℤ, r.answer = .int n → row.answer = Option.some n) ∧
      (∀ s : String, r.answer = .str s →
        row.answer = if pyIsdigit s then Option.some (digitsToNat s : ℤ) else Option.none) ∧
      ((∃ n, row.answer = Option.some n) ↔
        (∃ n, r.answer = .int n) ∨ ∃ s, r.answer = .str s ∧ pyIsdigit s = true) := by
  unfold make_row at h
  cases hans : r.answer with
  | int n =>
    rw [hans] at h
    rw [show answer_column (.int n) = .ok (Option.some n) from rfl, ok_bind] at h
    cases h
    refine ⟨rfl, rfl, ?_, ?_, ?_⟩
    · intro n' hn'
      cases hn'
      rfl
    · intro s hs
      exact PyAnswer.noConfusion hs
    · exact ⟨fun _ => Or.inl ⟨n, rfl⟩, fun _ => ⟨n, rfl⟩⟩
  | str s =>
    rw [hans] at h
    rw [show answer_column (.str s) =
      .ok (if pyIsdigit s then Option.some (digitsToNat s : ℤ) else Option.none) from rfl,
      ok_bind] at h
    cases h
    refine ⟨rfl, rfl, ?_, ?_, ?_⟩
    · intro n' hn'
      exact PyAnswer.noConfusion hn'
    · intro s' hs'
      cases hs'
      rfl
    · by_cases hd : pyIsdigit s = true
      · rw [if_pos hd]
        exact ⟨fun _ => Or.inr ⟨s, rfl, hd⟩, fun _ => ⟨(digitsToNat s : ℤ), rfl⟩⟩
      · rw [if_neg hd]
        constructor
        · intro hex
          rcases hex with ⟨n', hn'⟩
          exact Option.noConfusion hn'
        · intro hor
          rcases hor with ⟨n', hn'⟩ | ⟨s', hs', hd'⟩
          · exact PyAnswer.noConfusion hn'
          · cases hs'
            exact absurd hd' hd
  | null =>
    rw [hans] at h
    exact Except.noConfusion h

/-- Claim C10: for every `InputResult` persisted by `save_results`, the
integer answer column holds the integer value of the answer iff the
answer is an `int` or a string of digits (absent otherwise, e.g. for
the negative-number string `"-42"`), while the raw-answer column always
holds the answer unchanged and the time column the median. -/
theorem save_results_answer_columns (aid d p : ℤ) (c : String) :
    ∀ (results : List RunResult) (rows : List Row),
      save_results aid d p c results = .ok rows →
      List.Forall₂ (fun (r : RunResult) (row : Row) =>
        row.answer2 = r.answer ∧ row.time = r.median ∧
          (∀ n : ℤ, r.answer = .int n → row.answer = Option.some n) ∧
          (∀ s : String, r.answer = .str s →
            row.answer = if pyIsdigit s then Option.some (digitsToNat s : ℤ) else Option.none) ∧
          ((∃ n, row.answer = Option.some n) ↔
            (∃ n, r.answer = .int n) ∨ ∃ s, r.answer = .str s ∧ pyIsdigit s = true))
        results rows
  | [], rows, h => by
    cases h
    exact List.Forall₂.nil
  | r :: rest, rows, h => by
    unfold save_results at h
    rw [List.mapM_cons] at h
    cases hmr : make_row aid d p c r with
    | error e => rw [hmr] at h; exact Except.noConfusion h
    | ok row =>
      rw [hmr, ok_bind] at h
      cases hrest : rest.mapM (make_row aid d p c) with
      | error e => rw [hrest] at h; exact Except.noConfusion h
      | ok rows' =>
        rw [hrest, ok_bind] at h
        cases h
        exact List.Forall₂.cons (make_row_char aid d p c r row hmr)
          (save_results_answer_columns aid d p c rest rows' hrest)

/-- Witness for `save_results_answer_columns`: a result answering the
negative-number string `"-42"` is persisted with the integer column
absent and the raw column holding `"-42"`; one answering `"42"` gets
integer 42. -/
theorem save_results_answer_columns_witness :
    save_results 123 3 1 "fn" [{ answer := PyAnswer.str "-42", median := Option.some 5 },
                               { answer := PyAnswer.str "42", median := Option.some 6 }] =
      .ok [{ user := "123", code := "fn", day := 3, part := 1, time := Option.some 5,
             answer := Option.none, answer2 := PyAnswer.str "-42" },
           { user := "123", code := "fn", day := 3, part := 1, time := Option.some 6,
             answer := Option.some 42, answer2 := PyAnswer.str "42" }] ∧
    ¬∃ n, (Option.none : Option ℤ) = Option.some n := by
  have hsave : save_results 123 3 1 "fn"
      [{ answer := PyAnswer.str "-42", median := Option.some 5 },
       { answer := PyAnswer.str "42", median := Option.some 6 }] =
      .ok [{ user := "123", code := "fn", day := 3, part := 1, time := Option.some 5,
             answer := Option.none, answer2 := PyAnswer.str "-42" },
           { user := "123", code := "fn", day := 3, part := 1, time := Option.some 6,
             answer := Option.some 42, answer2 := PyAnswer.str "42" }] := rfl
  have hall := save_results_answer_columns 123 3 1 "fn" _ _ hsave
  cases hall with
  | cons hpair htail =>
    refine ⟨hsave, ?_⟩
    have habs := hpair.2.2.2.2
    intro hex
    rcases habs.mp hex with ⟨n', hn'⟩ | ⟨s', hs', hd'⟩
    · exact PyAnswer.noConfusion hn'
    · cases hs'
      exact Bool.noConfusion hd'

/-! ## Claim C5: staging inputs (`load_input`, lines 157–179)

The inputs area is modelled as the set of currently existing paths
(relative component lists) with their kinds.  `pathlib`'s glob is
fnmatch-based: `**slash*` matches every descendant path, hidden entries
included, and `**slash.*` every path whose last component starts with a
dot (verified against CPython 3.11).  The source iterates the glob
matches lazily while deleting; paths whose ancestor was already
`rmtree`d fail both the `is_file` and `is_dir` checks and are skipped,
which is exactly how the model's `visitPath` treats a no-longer-existing
path, so computing the match list up front is observationally equal. -/

/-- A filesystem entry kind in the workspace's inputs area. -/
inductive FsKind
  | file (content : String)
  | dirMark
  deriving DecidableEq, Repr

/-- The inputs area: the existing paths with their kinds. -/
abbrev FsState : Type := List (List String × FsKind)

/-- `p` is an initial segment of `q` (so deleting the tree at `p`
removes `q`). -/
def pathLeq : List String → List String → Bool
  | [], _ => true
  | _ :: _, [] => false
  | a :: p, b :: q => a == b && pathLeq p q

/-- `path.is_file()`. -/
def is_file (s : FsState) (p : List String) : Bool :=
  s.any fun e => e.1 == p && (match e.2 with | .file _ => true | .dirMark => false)

/-- `path.is_dir()`. -/
def is_dir (s : FsState) (p : List String) : Bool :=
  s.any fun e => e.1 == p && (match e.2 with | .dirMark => true | .file _ => false)

/-- `path.unlink()`: removes the entry at exactly `p`. -/
def unlink (s : FsState) (p : List String) : FsState :=
  s.filter fun e => !(e.1 == p)

/-- `shutil.rmtree(path)`: removes `p` and everything below it. -/
def rmtree (s : FsState) (p : List String) : FsState :=
  s.filter fun e => !(pathLeq p e.1)

/-- The body of each deletion loop of `load_input`: unlink files,
recursively delete directories, skip paths that no longer exist. -/
def visitPath (s : FsState) (p : List String) : FsState :=
  if is_file s p then unlink s p
  else if is_dir s p then rmtree s p
  else s

/-- One full deletion loop over a list of glob matches. -/
def deletePass (s : FsState) (ps : List (List String)) : FsState :=
  ps.foldl visitPath s

/-- `pathlib.Path(...).glob("**" ++ "/*")`: every descendant path,
hidden entries included. -/
def glob_star (s : FsState) : List (List String) :=
  s.map fun e => e.1

/-- `pathlib.Path(...).glob("**" ++ "/.*")`: every path whose last
component starts with a dot. -/
def glob_hidden (s : FsState) : List (List String) :=
  (s.map fun e => e.1).filter fun p =>
    match p.getLast? with
    | Option.some n => n.startsWith "."
    | Option.none => false

/-- `shutil.copy(day_file, inputs_dir)`: places the file at top level
under its own name, replacing any previous entry at that path. -/
def copy_into (s : FsState) (file_name content : String) : FsState :=
  (s.filter fun e => !(e.1 == [file_name])) ++ [([file_name], .file content)]

/-- `load_input(tmp_dir, day, file_name)` acting on the inputs area:
the two deletion loops (over the matches of the two glob patterns),
then the copy.  `content` is the staged input's content as read from
the day's input directory. -/
def load_input (s : FsState) (file_name content : String) : FsState :=
  let s1 := deletePass s (glob_star s)
  let s2 := deletePass s1 (glob_hidden s1)
  copy_into s2 file_name content

theorem pathLeq_refl : ∀ p : List String, pathLeq p p = true
  | [] => rfl
  | a :: p => by simp [pathLeq, pathLeq_refl p]

/-- Each loop step only ever removes entries. -/
theorem visitPath_sublist (s : FsState) (p : List String) :
    (visitPath s p).Sublist s := by
  unfold visitPath
  by_cases hf : is_file s p = true
  · rw [if_pos hf]
    exact List.filter_sublist s
  · rw [if_neg hf]
    by_cases hd : is_dir s p = true
    · rw [if_pos hd]
      exact List.filter_sublist s
    · rw [if_neg hd]

/-- A whole deletion pass only ever removes entries. -/
theorem deletePass_sublist : ∀ (ps : List (List String)) (s : FsState),
    (deletePass s ps).Sublist s
  | [], _ => List.Sublist.refl _
  | p :: ps, s =>
    List.Sublist.trans (deletePass_sublist ps (visitPath s p)) (visitPath_sublist s p)

/-- After visiting `p`, no entry at path `p` remains. -/
theorem visitPath_removes (s : FsState) (p : List String) :
    ∀ e ∈ visitPath s p, e.1 ≠ p := by
  intro e he
  unfold visitPath at he
  by_cases hf : is_file s p = true
  · rw [if_pos hf] at he
    have := (List.mem_filter.mp he).2
    intro hep
    rw [hep] at this
    simp at this
  · rw [if_neg hf] at he
    by_cases hd : is_dir s p = true
    · rw [if_pos hd] at he
      have := (List.mem_filter.mp he).2
      intro hep
      rw [hep] at this
      rw [pathLeq_refl p] at this
      exact Bool.noConfusion this
    · rw [if_neg hd] at he
      intro hep
      cases hk : e.2 with
      | file c =>
        apply hf
        rw [is_file, List.any_eq_true]
        exact ⟨e, he, by rw [hep, hk]; simp⟩
      | dirMark =>
        apply hd
        rw [is_dir, List.any_eq_true]
        exact ⟨e, he, by rw [hep, hk]; simp⟩

/-- After a pass over `ps`, no entry remains at any path of `ps`. -/
theorem deletePass_removes : ∀ (ps : List (List String)) (s : FsState)
    (p : List String), p ∈ ps → ∀ e ∈ deletePass s ps, e.1 ≠ p
  | [], _, _, hp, _, _ => absurd hp (List.not_mem_nil _)
  | q :: ps, s, p, hp, e, he => by
    rcases List.mem_cons.mp hp with rfl | hp'
    · exact visitPath_removes s p e ((deletePass_sublist ps (visitPath s p)).subset he)
    · exact deletePass_removes ps (visitPath s q) p hp' e he

/-- A pass over matches covering every existing path empties the
area. -/
theorem deletePass_all (s : FsState) (ps : List (List String))
    (hall : ∀ e ∈ s, e.1 ∈ ps) : deletePass s ps = [] := by
  rw [List.eq_nil_iff_forall_not_mem]
  intro e he
  exact deletePass_removes ps s e.1 (hall e ((deletePass_sublist ps s).subset he)) e he rfl

/-- Claim C5: after `load_input`, the inputs area contains exactly one
entry — a regular file with the staged input's name and content —
regardless of what was present before, including nested stale
directories and hidden entries.  (`pathlib`'s `**` glob matches every
top-level entry, hidden ones included, and unlinking/rmtree-ing each
top-level entry clears everything below it; the second, hidden-only
pass then runs over an already empty area.) -/
theorem load_input_stages_exactly_one (s : FsState) (file_name content : String) :
    load_input s file_name content = [([file_name], FsKind.file content)] := by
  have h1 : deletePass s (glob_star s) = [] :=
    deletePass_all s (glob_star s) (fun e he => List.mem_map_of_mem _ he)
  simp only [load_input, h1]
  rfl

end FerrisElf
